import Mathlib

/-!
Shallow embedding of the congress-tracker feed classification and filter-state
code, together with theorems settling the specification claims.

Sources embedded here:
* `src/unnamed/part_001` — three FeedCard variants:
  variant A (lines 466-631), variant B (lines 632-969), variant C (lines 970-1271);
  variants B and C share identical `parseNum`, `daysBetweenYMD` and
  `getInsiderKind` texts, embedded once under the namespace `FeedCardC`.
* `src/frontend/components/feed/FeedCard.tsx` — `parseNum` (lines 37-47),
  embedded under `FeedCardTsx`.
* `src/frontend/components/feed/FeedFilters.tsx` — `FilterState`,
  `clearHiddenFilters`, `initialFilters`, `buildParams`, `setMode`, and the
  sequence-stamped suggestion logic.

Numbers are modelled as `ℚ` (every JavaScript number occurring in these code
paths is finite and exactly representable for the inputs of interest);
non-finite numbers get their own constructors since the code only ever
observes them through `Number.isFinite`.
-/

/-- Model of a JavaScript value as it can reach `parseNum` / the `??` chains:
a finite number, `NaN`, an infinity, a string, `null`, or `undefined`. -/
inductive JSVal where
  | num (q : ℚ)
  | nan
  | inf
  | str (s : String)
  | null
  | undef
deriving DecidableEq

/-- JavaScript `a ?? b`: takes `b` exactly when `a` is `null` or `undefined`. -/
def jsCoalesce (a b : JSVal) : JSVal :=
  match a with
  | .null => b
  | .undef => b
  | x => x

/-- JavaScript `a ?? b` on `string | null | undefined` fields (both `null` and
`undefined` collapse to `none`). -/
def jsOrStr (a b : Option String) : Option String :=
  match a with
  | some s => some s
  | none => b

/-- `s.replace(/[c...]/g, "")`: delete every occurrence of the given characters. -/
def stripChars (cs : List Char) (s : String) : String :=
  ⟨s.data.filter (fun c => !cs.contains c)⟩

/-- Whitespace trim on a character list (both ends). -/
def trimList (l : List Char) : List Char :=
  ((l.dropWhile Char.isWhitespace).reverse.dropWhile Char.isWhitespace).reverse

/-- JavaScript `s.trim()` (structural-recursion model of `String.trim`). -/
def jsTrim (s : String) : String :=
  ⟨trimList s.data⟩

/-- JavaScript `s.toUpperCase()` on the ASCII alphabet these fields use
(structural-recursion model of `String.toUpper`). -/
def jsToUpper (s : String) : String :=
  ⟨s.data.map Char.toUpper⟩

/-- JavaScript `s.startsWith(pre)`. -/
def jsStartsWith (s pre : String) : Bool :=
  pre.data.isPrefixOf s.data

/-- Contiguous-sublist check used to model JavaScript `s.includes(sub)`. -/
def containsSub : List Char → List Char → Bool
  | sub, [] => sub.isEmpty
  | sub, c :: cs => sub.isPrefixOf (c :: cs) || containsSub sub cs

/-- JavaScript `s.includes(sub)`. -/
def jsIncludes (s sub : String) : Bool :=
  containsSub sub.data s.data

/-- Rational multiplication expressed through `mkRat` so that concrete values
reduce inside the kernel; `qmul_eq` identifies it with `*` on `ℚ`. -/
def qmul (a b : ℚ) : ℚ :=
  mkRat (a.num * b.num) (a.den * b.den)

/-- Rational addition expressed through `mkRat`; `qadd_eq` identifies it with
`+` on `ℚ`. -/
def qadd (a b : ℚ) : ℚ :=
  mkRat (a.num * b.den + b.num * a.den) (a.den * b.den)

/-- Numeric value of a digit list, most significant first. -/
def digitsNat (l : List Char) : Nat :=
  l.foldl (fun acc c => acc * 10 + (c.toNat - '0'.toNat)) 0

/-- Model of the JavaScript `Number(string)` conversion on the decimal
literals these code paths feed it: optional sign, digits with at most one
decimal point; the empty (all-whitespace) string converts to `0`; anything
else is `NaN`, modelled as `none`.  (Hex/exponent literal forms, which never
occur in these data fields, are mapped to `NaN`; the string `"Infinity"` is
also mapped to `none`, which the callers below cannot distinguish from `NaN`
because they guard every result with `Number.isFinite`.) -/
def jsNumber (s : String) : Option ℚ :=
  let t := jsTrim s
  if t = "" then some 0
  else
    let (sign, body) :=
      match t.data with
      | '-' :: rest => ((-1 : Int), rest)
      | '+' :: rest => ((1 : Int), rest)
      | l => ((1 : Int), l)
    let intPart := body.takeWhile (fun c => c ≠ '.')
    match body.dropWhile (fun c => c ≠ '.') with
    | [] =>
      if intPart ≠ [] && intPart.all Char.isDigit then
        some (mkRat (sign * (digitsNat intPart : Int)) 1)
      else none
    | '.' :: frac =>
      if intPart.all Char.isDigit && frac.all Char.isDigit &&
          (intPart ≠ [] || frac ≠ []) then
        some (mkRat (sign * ((digitsNat intPart * 10 ^ frac.length + digitsNat frac : Nat) : Int))
          (10 ^ frac.length))
      else none
    | _ => none

/-- Record model of a feed item, flattened over the optional-chaining paths the
classifier variants read (`insider_price` models `item.insider?.price`,
`raw_transactionType` models `item.payload?.raw?.transactionType`, and so on;
an absent intermediate object makes the whole path `undefined`). -/
structure FeedItem where
  trade_type : Option String := none
  insider_transaction_type : Option String := none
  payload_transaction_type : Option String := none
  raw_transactionType : Option String := none
  transaction_type : Option String := none
  acquisitionOrDisposition : Option String := none
  insider_shares : JSVal := .undef
  raw_securitiesTransacted : JSVal := .undef
  insider_price : JSVal := .undef
  raw_price : JSVal := .undef
deriving DecidableEq

/-- Direction tag produced by `getInsiderKind`. -/
inductive InsiderKind where
  | purchase
  | sale
deriving DecidableEq

/-- The purchase matcher line shared by every `getInsiderKind` variant:
`t.startsWith("P-") || t.startsWith("P") || t.includes("PURCHASE")`. -/
def purchaseMatch (t : String) : Bool :=
  jsStartsWith t "P-" || jsStartsWith t "P" || jsIncludes t "PURCHASE"

/-- The sale matcher line shared by every `getInsiderKind` variant:
`t.startsWith("S-") || t.startsWith("S") || t.includes("SALE")`. -/
def saleMatch (t : String) : Bool :=
  jsStartsWith t "S-" || jsStartsWith t "S" || jsIncludes t "SALE"

namespace FeedCardA

/-- `parseNum` of part_001 variant A (lines 501-511): strips commas only,
trims, rejects the empty string, and passes the result through
`Number.isFinite`. -/
def parseNum (v : JSVal) : Option ℚ :=
  match v with
  | .null => none
  | .undef => none
  | .num q => some q
  | .nan => none
  | .inf => none
  | .str s =>
    let cleaned := jsTrim (stripChars [','] s)
    if cleaned = "" then none else jsNumber cleaned

/-- The resolved coded transaction type of variant A (lines 513-526),
uppercased: `trade_type ?? insider.transaction_type ??
payload.raw.transactionType ?? transaction_type ?? ""`. -/
def rawType (item : FeedItem) : String :=
  jsToUpper
    ((jsOrStr item.trade_type
      (jsOrStr item.insider_transaction_type
        (jsOrStr item.raw_transactionType item.transaction_type))).getD "")

/-- `getInsiderKind` of part_001 variant A (lines 513-526): coded-type
matchers only, no acquisition/disposition fallback. -/
def getInsiderKind (item : FeedItem) : Option InsiderKind :=
  let t := rawType item
  if purchaseMatch t then some .purchase
  else if saleMatch t then some .sale
  else none

/-- Output record of variant A `getInsiderValue`. -/
structure InsiderValue where
  total : ℚ
  shares : ℚ
  price : ℚ
deriving DecidableEq

/-- The shares input of variant A `getInsiderValue`:
`insider.shares ?? payload.raw.securitiesTransacted`. -/
def sharesIn (item : FeedItem) : JSVal :=
  jsCoalesce item.insider_shares item.raw_securitiesTransacted

/-- The price input of variant A `getInsiderValue`:
`insider.price ?? payload.raw.price ?? item.insider.price`. -/
def priceIn (item : FeedItem) : JSVal :=
  jsCoalesce item.insider_price (jsCoalesce item.raw_price item.insider_price)

/-- `getInsiderValue` of part_001 variant A (lines 528-539): `shares × price`
when both parse to strictly positive numbers and the product reaches the
$1,001 materiality threshold, otherwise `null`. -/
def getInsiderValue (item : FeedItem) : Option InsiderValue :=
  match parseNum (sharesIn item), parseNum (priceIn item) with
  | some sh, some pr =>
    if sh ≤ 0 ∨ pr ≤ 0 then none
    else if qmul sh pr < 1001 then none
    else some ⟨qmul sh pr, sh, pr⟩
  | _, _ => none

/-- The drop rule of variant A `FeedCard` (lines 549-551): an insider item
renders nothing when either the kind or the value is missing. -/
def dropsInsider (item : FeedItem) : Bool :=
  (getInsiderKind item).isNone || (getInsiderValue item).isNone

end FeedCardA

namespace FeedCardC

/-- `parseNum` of part_001 variants B and C (lines 677-687 and 1015-1025):
strips dollar signs and commas, trims, rejects the empty string, and passes
the result through `Number.isFinite`. -/
def parseNum (v : JSVal) : Option ℚ :=
  match v with
  | .null => none
  | .undef => none
  | .num q => some q
  | .nan => none
  | .inf => none
  | .str s =>
    let cleaned := jsTrim (stripChars ['$', ','] s)
    if cleaned = "" then none else jsNumber cleaned

/-- The resolved coded transaction type of variants B/C (lines 754-771 and
1089-1106), uppercased: `trade_type ?? insider.transaction_type ??
payload.transaction_type ?? payload.raw.transactionType ??
transaction_type ?? ""`. -/
def rawDirection (item : FeedItem) : String :=
  jsToUpper
    ((jsOrStr item.trade_type
      (jsOrStr item.insider_transaction_type
        (jsOrStr item.payload_transaction_type
          (jsOrStr item.raw_transactionType item.transaction_type)))).getD "")

/-- The uppercased acquisition/disposition flag:
`payload.raw.acquisitionOrDisposition?.toUpperCase() ?? ""`. -/
def adFlag (item : FeedItem) : String :=
  (item.acquisitionOrDisposition.map jsToUpper).getD ""

/-- `getInsiderKind` of part_001 variants B and C (lines 754-771 and
1089-1106): coded-type matchers first, then the acquisition/disposition flag,
else `null`. -/
def getInsiderKind (item : FeedItem) : Option InsiderKind :=
  let t := rawDirection item
  let ad := adFlag item
  if purchaseMatch t then some .purchase
  else if saleMatch t then some .sale
  else if ad = "A" then some .purchase
  else if ad = "D" then some .sale
  else none

/-- The drop rule of the variant B/C `FeedCard` (`if (isInsider && !insiderKind)
return null`): an insider item renders nothing exactly when the kind is
missing. -/
def dropsInsider (item : FeedItem) : Bool :=
  (getInsiderKind item).isNone

end FeedCardC

namespace FeedCardTsx

/-- `parseNum` of `src/frontend/components/feed/FeedCard.tsx` (lines 37-47):
identical to the variant A parser — strips commas only (no currency symbol
handling), trims, rejects the empty string. -/
def parseNum (v : JSVal) : Option ℚ :=
  match v with
  | .null => none
  | .undef => none
  | .num q => some q
  | .nan => none
  | .inf => none
  | .str s =>
    let cleaned := jsTrim (stripChars [','] s)
    if cleaned = "" then none else jsNumber cleaned

end FeedCardTsx

/-- Rational subtraction expressed through `mkRat`; `qsub_eq` identifies it
with `-` on `ℚ`. -/
def qsub (a b : ℚ) : ℚ :=
  mkRat (a.num * b.den - b.num * a.den) (a.den * b.den)

/-- `"a-b-c".split("-")` on character lists (JavaScript `String.split` with a
single-character separator; the empty string yields one empty field). -/
def splitOnChar (sep : Char) : List Char → List (List Char)
  | [] => [[]]
  | c :: cs =>
    let r := splitOnChar sep cs
    if c = sep then [] :: r
    else
      match r with
      | [] => [[c]]
      | h :: t => (c :: h) :: t

namespace FeedCardC

/-- Day number (days since 1970-01-01) of a civil date with month in 1..12,
by the standard civil-calendar algorithm; this is exactly the day index
underlying ECMAScript `Date.UTC` (day overflow is handled by the formula
being linear in `d`). -/
def daysFromCivil (y m d : Int) : Int :=
  let yAdj := if m ≤ 2 then y - 1 else y
  let era := Int.fdiv yAdj 400
  let yoe := yAdj - era * 400
  let mp := if 2 < m then m - 3 else m + 9
  let doy := Int.fdiv (153 * mp + 2) 5 + d - 1
  let doe := yoe * 365 + Int.fdiv yoe 4 - Int.fdiv yoe 100 + doy
  era * 146097 + doe - 719468

/-- ECMAScript `ToIntegerOrInfinity` on a finite value: truncation toward
zero. -/
def jsToInt (q : ℚ) : Int :=
  if 0 ≤ q then ⌊q⌋ else ⌈q⌉

/-- Day index of `Date.UTC(y, m0, d)` where `m0` is the zero-based JS month;
months outside 0..11 roll the year exactly as `MakeDay` does. -/
def jsMakeDay (y m0 d : Int) : Int :=
  daysFromCivil (y + Int.fdiv m0 12) (Int.emod m0 12 + 1) d

/-- `Date.UTC(y, m0, d)` in milliseconds (finite arguments). -/
def jsDateUTC (y m0 d : ℚ) : Int :=
  86400000 * jsMakeDay (jsToInt y) (jsToInt m0) (jsToInt d)

/-- `Math.round` on a finite value: floor of `q + 1/2`. -/
def jsRound (q : ℚ) : Int :=
  ⌊qadd q (mkRat 1 2)⌋

/-- The component step of `daysBetweenYMD`:
`s.slice(0, 10).split("-").map(Number)` destructured to three components,
with the truthiness guard `!y || !m || !d` applied — `none` when any of the
first three components is missing (`Number(undefined)` is `NaN`), `NaN`, or
zero. -/
def parseYMD (s : String) : Option (ℚ × ℚ × ℚ) :=
  let parts := splitOnChar '-' (s.data.take 10)
  match (parts[0]?).bind (fun p => jsNumber ⟨p⟩),
        (parts[1]?).bind (fun p => jsNumber ⟨p⟩),
        (parts[2]?).bind (fun p => jsNumber ⟨p⟩) with
  | some y, some m, some d =>
    if y = 0 ∨ m = 0 ∨ d = 0 then none else some (y, m, d)
  | _, _, _ => none

/-- `daysBetweenYMD` of part_001 variants B and C (lines 730-741 and
1065-1076): `null` for a missing or empty argument or an unparseable
component, else `Math.round((Date.UTC(b) - Date.UTC(a)) / 86400000)` (always
finite here, so the final `Number.isFinite` guard never fires). -/
def daysBetweenYMD (a b : Option String) : Option Int :=
  match a, b with
  | some sa, some sb =>
    if sa = "" ∨ sb = "" then none
    else
      match parseYMD sa, parseYMD sb with
      | some (ay, am, ad), some (cy, cm, cd) =>
        let t1 := jsDateUTC ay (qsub am 1) ad
        let t2 := jsDateUTC cy (qsub cm 1) cd
        some (jsRound (mkRat (t2 - t1) 86400000))
      | _, _ => none
  | _, _ => none

/-- The congress lag display of the variant B/C FeedCard
(`lagDays !== null && lagDays >= 0` shows the value, otherwise the
placeholder, modelled as `none`). -/
def shownLag (lag : Option Int) : Option Int :=
  match lag with
  | some d => if 0 ≤ d then some d else none
  | none => none

end FeedCardC

namespace FeedFilters

/-- The `FeedMode` union type of FeedFilters.tsx. -/
inductive FeedMode where
  | congress
  | insider
  | all
deriving DecidableEq

/-- The wire string of a mode, as written by `params.set("tape", nextFilters.tape)`. -/
def FeedMode.wire : FeedMode → String
  | .congress => "congress"
  | .insider => "insider"
  | .all => "all"

/-- `FilterState` of FeedFilters.tsx (lines 15-26). -/
structure FilterState where
  tape : FeedMode
  symbol : String
  minAmount : String
  recentDays : String
  member : String
  chamber : String
  party : String
  tradeType : String
  transactionType : String
  role : String
deriving DecidableEq

/-- `clearHiddenFilters` of FeedFilters.tsx (lines 52-66). -/
def clearHiddenFilters (mode : FeedMode) (next : FilterState) : FilterState :=
  match mode with
  | .congress => { next with transactionType := "", role := "" }
  | .insider => { next with member := "", chamber := "", party := "", tradeType := "" }
  | .all => { next with member := "", chamber := "", party := "", role := "" }

/-- `setMode` of FeedFilters.tsx (lines 203-205): one atomic state update. -/
def setMode (mode : FeedMode) (current : FilterState) : FilterState :=
  clearHiddenFilters mode { current with tape := mode }

/-- `URLSearchParams` restricted to the ten managed keys.  The source deletes
every managed key from a copy of the live params before setting any, and
`initialFilters` reads only these ten keys, so unmanaged entries (which the
source preserves and never reads back) are not modelled. -/
structure Params where
  tape : Option String := none
  symbol : Option String := none
  min_amount : Option String := none
  recent_days : Option String := none
  member : Option String := none
  chamber : Option String := none
  party : Option String := none
  trade_type : Option String := none
  transaction_type : Option String := none
  role : Option String := none
deriving DecidableEq

/-- `normalizeValue` of FeedFilters.tsx (lines 48-50): `(value ?? "").trim()`. -/
def normalizeValue (value : Option String) : String :=
  jsTrim (value.getD "")

/-- `initialFilters` of FeedFilters.tsx (lines 78-93): decode the URL query
into a `FilterState`, defaulting an unrecognized `tape` to `all`. -/
def initialFilters (p : Params) : FilterState :=
  let tape := normalizeValue p.tape
  { tape :=
      if tape = "congress" then .congress
      else if tape = "insider" then .insider
      else if tape = "all" then .all
      else .all
    symbol := normalizeValue p.symbol
    minAmount := normalizeValue p.min_amount
    recentDays := normalizeValue p.recent_days
    member := normalizeValue p.member
    chamber := normalizeValue p.chamber
    party := normalizeValue p.party
    tradeType := normalizeValue p.trade_type
    transactionType := normalizeValue p.transaction_type
    role := normalizeValue p.role }

/-- `buildParams` of FeedFilters.tsx (lines 142-182): delete every managed key
from a copy of the current params, then set `tape` unconditionally, the
mode-independent filters when non-empty, and the mode-specific filters only
under their mode. -/
def buildParams (base : Params) (next : FilterState) : Params :=
  let p : Params := { base with
    tape := none
    symbol := none
    min_amount := none
    recent_days := none
    member := none
    chamber := none
    party := none
    trade_type := none
    transaction_type := none
    role := none }
  let p := { p with tape := some next.tape.wire }
  let p := if next.symbol ≠ "" then { p with symbol := some next.symbol } else p
  let p := if next.minAmount ≠ "" then { p with min_amount := some next.minAmount } else p
  let p := if next.recentDays ≠ "" then { p with recent_days := some next.recentDays } else p
  -- the source guards the remaining sets with three mutually exclusive,
  -- exhaustive tests on `nextFilters.tape`; they are rendered as one match
  match next.tape with
  | .congress =>
    let p := if next.member ≠ "" then { p with member := some next.member } else p
    let p := if next.chamber ≠ "" then { p with chamber := some next.chamber } else p
    let p := if next.party ≠ "" then { p with party := some next.party } else p
    if next.tradeType ≠ "" then { p with trade_type := some next.tradeType } else p
  | .insider =>
    let p := if next.transactionType ≠ "" then { p with transaction_type := some next.transactionType } else p
    if next.role ≠ "" then { p with role := some next.role } else p
  | .all =>
    let p := if next.tradeType ≠ "" then { p with trade_type := some next.tradeType } else p
    if next.transactionType ≠ "" then { p with transaction_type := some next.transactionType } else p

/-- The suggestion subsystem state: the `suggestionsRequestRef` counter and
the visible `symbolSuggestions` list (FeedFilters.tsx lines 72-76). -/
structure SuggestState where
  counter : Nat
  visible : List String
deriving DecidableEq

/-- One effect run for a non-empty input (FeedFilters.tsx lines 118-119):
`const requestId = ref.current + 1; ref.current = requestId`; returns the new
state together with the id stamped onto the dispatched request. -/
def dispatch (s : SuggestState) : SuggestState × Nat :=
  ({ s with counter := s.counter + 1 }, s.counter + 1)

/-- A response arriving (FeedFilters.tsx lines 125-127): it updates the
visible list only when its stamp still equals the latest dispatched counter,
otherwise it is discarded. -/
def arrive (s : SuggestState) (requestId : Nat) (items : List String) : SuggestState :=
  if s.counter = requestId then { s with visible := items } else s

end FeedFilters

/-- The record of the spec scenario `{transactionType: "A-Award"}`. -/
def awardItem : FeedItem :=
  { raw_transactionType := some "A-Award" }

/-- An award record that additionally carries acquisition/disposition flag `A`. -/
def awardFlagItem : FeedItem :=
  { raw_transactionType := some "A-Award", acquisitionOrDisposition := some "A" }

/-- A record with no coded type and flag `A`. -/
def flagAItem : FeedItem :=
  { acquisitionOrDisposition := some "A" }

/-- A record with no coded type and flag `D`. -/
def flagDItem : FeedItem :=
  { acquisitionOrDisposition := some "D" }

/-- A sale-shaped record (`"Stock Gift"` uppercases to a string beginning with
`S`) whose flag says `A`. -/
def stockGiftItem : FeedItem :=
  { raw_transactionType := some "Stock Gift", acquisitionOrDisposition := some "A" }

/-- The record of the spec scenario
`{transactionType: "S-Sale", shares: "1,000", price: "$25.50"}`. -/
def dollarSaleItem : FeedItem :=
  { raw_transactionType := some "S-Sale"
    insider_shares := .str "1,000"
    insider_price := .str "$25.50" }

/-- A record with shares present but no price at all. -/
def sharesOnlyItem : FeedItem :=
  { raw_transactionType := some "S-Sale", insider_shares := .str "1,000" }

/-- All values of a filter state are trim-stable (no surrounding whitespace),
so the decoder's `.trim()` returns them unchanged. -/
def FeedFilters.trimNormal (f : FeedFilters.FilterState) : Prop :=
  jsTrim f.symbol = f.symbol ∧ jsTrim f.minAmount = f.minAmount ∧
  jsTrim f.recentDays = f.recentDays ∧ jsTrim f.member = f.member ∧
  jsTrim f.chamber = f.chamber ∧ jsTrim f.party = f.party ∧
  jsTrim f.tradeType = f.tradeType ∧ jsTrim f.transactionType = f.transactionType ∧
  jsTrim f.role = f.role

instance (f : FeedFilters.FilterState) : Decidable (FeedFilters.trimNormal f) := by
  unfold FeedFilters.trimNormal
  infer_instance

/-- An insider-mode state carrying a congress-only filter value. -/
def insiderMemberState : FeedFilters.FilterState :=
  ⟨.insider, "", "", "", "Pelosi", "", "", "", "", ""⟩

/-- A mode-clean, trim-stable congress state used to instantiate the amended
round-trip. -/
def congressViewState : FeedFilters.FilterState :=
  ⟨.congress, "NVDA", "250000", "30", "Pelosi", "house", "D", "buy", "", ""⟩

theorem qmul_eq (a b : ℚ) : qmul a b = a * b := by
  rw [qmul, Rat.mkRat_eq_div]
  push_cast
  rw [← div_mul_div_comm, Rat.num_div_den, Rat.num_div_den]

theorem qadd_eq (a b : ℚ) : qadd a b = a + b := by
  have ha : ((a.den : ℚ)) ≠ 0 := by positivity
  have hb : ((b.den : ℚ)) ≠ 0 := by positivity
  rw [qadd, Rat.mkRat_eq_div]
  push_cast
  conv_rhs => rw [← Rat.num_div_den a, ← Rat.num_div_den b]
  field_simp

theorem qsub_eq (a b : ℚ) : qsub a b = a - b := by
  have ha : ((a.den : ℚ)) ≠ 0 := by positivity
  have hb : ((b.den : ℚ)) ≠ 0 := by positivity
  rw [qsub, Rat.mkRat_eq_div]
  push_cast
  conv_rhs => rw [← Rat.num_div_den a, ← Rat.num_div_den b]
  field_simp
  ring

theorem jsTrim_empty : jsTrim "" = "" := rfl

theorem jsTrim_congress : jsTrim "congress" = "congress" := rfl

theorem jsTrim_insider : jsTrim "insider" = "insider" := rfl

theorem jsTrim_all : jsTrim "all" = "all" := rfl

/-- Starts-with on a two-character pattern implies starts-with on its head. -/
theorem isPrefixOf_two_head {a b : Char} {l : List Char}
    (h : List.isPrefixOf [a, b] l = true) : List.isPrefixOf [a] l = true := by
  cases l with
  | nil => simp [List.isPrefixOf] at h
  | cons c cs =>
    simp [List.isPrefixOf] at h ⊢
    exact h.1

/-- C1 counterexample: the record `{transactionType: "A-Award",
acquisitionOrDisposition: "A"}` — an exclusion-coded transaction with an
acquisition/disposition flag present — is classified `purchase` by
`getInsiderKind` and is not dropped from the feed, contradicting the claim
that such records always classify to no direction and are omitted even when
a flag is present. -/
theorem insider_award_with_flag_classified :
    FeedCardC.getInsiderKind awardFlagItem = some InsiderKind.purchase ∧
    FeedCardC.dropsInsider awardFlagItem = false := by decide

/-- C1 (amended): a record whose resolved coded transaction type matches
neither the purchase nor the sale matchers (which covers every exclusion
code) and whose acquisition/disposition flag resolves to neither `A` nor `D`
classifies to no direction and is dropped from the feed; in particular the
record `{transactionType: "A-Award"}` (no flag) is excluded both under the
variant B/C drop rule and under the variant A drop rule. -/
theorem insider_unmatched_dropped :
    (∀ item : FeedItem,
        purchaseMatch (FeedCardC.rawDirection item) = false →
        saleMatch (FeedCardC.rawDirection item) = false →
        FeedCardC.adFlag item ≠ "A" →
        FeedCardC.adFlag item ≠ "D" →
        FeedCardC.getInsiderKind item = none ∧ FeedCardC.dropsInsider item = true) ∧
    FeedCardC.getInsiderKind awardItem = none ∧
    FeedCardC.dropsInsider awardItem = true ∧
    FeedCardA.getInsiderKind awardItem = none ∧
    FeedCardA.dropsInsider awardItem = true := by
  refine ⟨?_, by decide, by decide, by decide, by decide⟩
  intro item hp hs hA hD
  have hk : FeedCardC.getInsiderKind item = none := by
    simp [FeedCardC.getInsiderKind, hp, hs, hA, hD]
  exact ⟨hk, by simp [FeedCardC.dropsInsider, hk]⟩

/-- C1 witness: the hypotheses of the amended theorem hold at the concrete
award record, which is therefore dropped. -/
theorem insider_unmatched_dropped_witness :
    FeedCardC.getInsiderKind awardItem = none ∧ FeedCardC.dropsInsider awardItem = true :=
  insider_unmatched_dropped.1 awardItem (by decide) (by decide) (by decide) (by decide)

/-- C2: when the resolved coded transaction type matches neither the purchase
nor the sale matchers (in particular when it is absent, making the resolved
string empty), the direction falls back to the acquisition/disposition flag:
`A` resolves to purchase and `D` resolves to sale. -/
theorem insider_flag_fallback (item : FeedItem)
    (hp : purchaseMatch (FeedCardC.rawDirection item) = false)
    (hs : saleMatch (FeedCardC.rawDirection item) = false) :
    (FeedCardC.adFlag item = "A" → FeedCardC.getInsiderKind item = some InsiderKind.purchase) ∧
    (FeedCardC.adFlag item = "D" → FeedCardC.getInsiderKind item = some InsiderKind.sale) := by
  constructor <;> intro h <;> simp [FeedCardC.getInsiderKind, hp, hs, h]

/-- C2 witness: with no coded type at all, flag `A` yields purchase and flag
`D` yields sale. -/
theorem insider_flag_fallback_witness :
    FeedCardC.getInsiderKind flagAItem = some InsiderKind.purchase ∧
    FeedCardC.getInsiderKind flagDItem = some InsiderKind.sale :=
  ⟨(insider_flag_fallback flagAItem (by decide) (by decide)).1 (by decide),
   (insider_flag_fallback flagDItem (by decide) (by decide)).2 (by decide)⟩

/-- C9: the coded-type matchers shadow the acquisition/disposition flag — any
record whose resolved, uppercased transaction type begins with `S`, does not
begin with `P`, and does not contain `PURCHASE` classifies as sale no matter
what the flag holds (the flag branches sit below the matcher branches). -/
theorem insider_sale_shadows_flag (item : FeedItem)
    (hS : jsStartsWith (FeedCardC.rawDirection item) "S" = true)
    (hP : jsStartsWith (FeedCardC.rawDirection item) "P" = false)
    (hPu : jsIncludes (FeedCardC.rawDirection item) "PURCHASE" = false) :
    FeedCardC.getInsiderKind item = some InsiderKind.sale := by
  have hp2 : jsStartsWith (FeedCardC.rawDirection item) "P-" = false := by
    cases hx : jsStartsWith (FeedCardC.rawDirection item) "P-"
    · rfl
    · exfalso
      have hx' : List.isPrefixOf ['P', '-'] (FeedCardC.rawDirection item).data = true := hx
      have h1 := isPrefixOf_two_head hx'
      have hP' : List.isPrefixOf ['P'] (FeedCardC.rawDirection item).data = false := hP
      rw [h1] at hP'
      exact absurd hP' (by decide)
  simp [FeedCardC.getInsiderKind, purchaseMatch, saleMatch, hp2, hP, hPu, hS]

/-- C9 witness: `"Stock Gift"` with flag `A` still classifies as sale — the
matcher fires before the flag is consulted. -/
theorem insider_sale_shadows_flag_witness :
    FeedCardC.getInsiderKind stockGiftItem = some InsiderKind.sale :=
  insider_sale_shadows_flag stockGiftItem (by decide) (by decide) (by decide)

/-- C3 counterexample: on the scenario record the direction is sale, but the
variant A value derivation returns `null` — its comma-only `parseNum` cannot
read `"$25.50"` — so `counted_value` is absent (not `25500`) and the record is
dropped from the feed, contradicting the claimed scenario outcome. -/
theorem insider_value_dollar_counterexample :
    FeedCardA.getInsiderKind dollarSaleItem = some InsiderKind.sale ∧
    FeedCardA.getInsiderValue dollarSaleItem = none ∧
    FeedCardA.dropsInsider dollarSaleItem = true := by decide

/-- C3 (amended): the variant A `counted_value` is derived solely as
`shares × price` (no amount-range input exists in this variant), it is
produced only when both inputs parse — with only comma separators stripped, a
currency symbol makes the price unparseable — to strictly positive numbers
with product at least $1,001, so it is never negative and never zero; when
either parse fails the value is absent rather than zero.  On the scenario
record the direction is sale but the value is absent, so the record is
excluded from the feed. -/
theorem insider_value_amended :
    (∀ (item : FeedItem) (v : FeedCardA.InsiderValue),
        FeedCardA.getInsiderValue item = some v →
        v.total = v.shares * v.price ∧ (1001 : ℚ) ≤ v.total ∧ 0 < v.shares ∧ 0 < v.price) ∧
    (∀ item : FeedItem,
        FeedCardA.parseNum (FeedCardA.sharesIn item) = none ∨
        FeedCardA.parseNum (FeedCardA.priceIn item) = none →
        FeedCardA.getInsiderValue item = none) ∧
    FeedCardA.getInsiderKind dollarSaleItem = some InsiderKind.sale ∧
    FeedCardA.getInsiderValue dollarSaleItem = none ∧
    FeedCardA.dropsInsider dollarSaleItem = true := by
  refine ⟨?_, ?_, by decide, by decide, by decide⟩
  · intro item v h
    unfold FeedCardA.getInsiderValue at h
    cases hs : FeedCardA.parseNum (FeedCardA.sharesIn item) with
    | none =>
      rw [hs] at h
      cases hp : FeedCardA.parseNum (FeedCardA.priceIn item) <;> rw [hp] at h <;> cases h
    | some sh =>
      rw [hs] at h
      cases hp : FeedCardA.parseNum (FeedCardA.priceIn item) with
      | none => rw [hp] at h; cases h
      | some pr =>
        rw [hp] at h
        dsimp only at h
        by_cases h1 : sh ≤ 0 ∨ pr ≤ 0
        · rw [if_pos h1] at h; cases h
        · rw [if_neg h1] at h
          by_cases h2 : qmul sh pr < 1001
          · rw [if_pos h2] at h; cases h
          · rw [if_neg h2] at h
            push_neg at h1
            cases h
            exact ⟨qmul_eq sh pr, le_of_not_lt h2, h1.1, h1.2⟩
  · intro item h
    unfold FeedCardA.getInsiderValue
    rcases h with h | h
    · rw [h]
    · rw [h]
      cases hs : FeedCardA.parseNum (FeedCardA.sharesIn item) <;> rfl

/-- C3 witness: a record with shares but no price has an absent value (not
zero), and the spec scenario record instantiates the positivity part
vacuously through the missing-input part. -/
theorem insider_value_amended_witness :
    FeedCardA.getInsiderValue sharesOnlyItem = none ∧
    FeedCardA.getInsiderValue dollarSaleItem = none :=
  ⟨insider_value_amended.2.1 sharesOnlyItem (Or.inr (by decide)),
   insider_value_amended.2.1 dollarSaleItem (Or.inr (by decide))⟩

/-- C5 counterexample: on the input `"$25.50"` the FeedCard.tsx parser — one
of the two cited implementations of the Value Parser — returns absent instead
of the `25.50` that stripping currency symbols before parsing would produce
(the part_001 parser, which does strip `$`, returns `25.50`). -/
theorem parseNum_currency_counterexample :
    FeedCardTsx.parseNum (.str "$25.50") = none ∧
    FeedCardC.parseNum (.str "$25.50") = some (mkRat 51 2) := by decide

/-- C5 (amended): both cited parsers return a finite number or absent (they
are total functions and never throw): finite numbers pass through unchanged,
non-finite numbers and `null`/`undefined` yield absent, strings are stripped
of grouping commas — the part_001 parser also strips dollar signs, the
FeedCard.tsx parser does not, so a currency-prefixed string yields absent
there — then trimmed, and empty or non-numeric strings yield absent rather
than zero. -/
theorem parseNum_amended :
    (∀ q : ℚ, FeedCardTsx.parseNum (.num q) = some q ∧ FeedCardC.parseNum (.num q) = some q) ∧
    (FeedCardTsx.parseNum .nan = none ∧ FeedCardTsx.parseNum .inf = none ∧
      FeedCardTsx.parseNum .null = none ∧ FeedCardTsx.parseNum .undef = none ∧
      FeedCardC.parseNum .nan = none ∧ FeedCardC.parseNum .inf = none ∧
      FeedCardC.parseNum .null = none ∧ FeedCardC.parseNum .undef = none) ∧
    (∀ s, jsTrim (stripChars [','] s) = "" → FeedCardTsx.parseNum (.str s) = none) ∧
    (∀ s, jsTrim (stripChars ['$', ','] s) = "" → FeedCardC.parseNum (.str s) = none) ∧
    FeedCardTsx.parseNum (.str "1,000") = some 1000 ∧
    FeedCardC.parseNum (.str "$25.50") = some (mkRat 51 2) ∧
    FeedCardTsx.parseNum (.str "$25.50") = none ∧
    FeedCardTsx.parseNum (.str "abc") = none ∧
    FeedCardC.parseNum (.str "abc") = none := by
  refine ⟨fun q => ⟨rfl, rfl⟩, ⟨rfl, rfl, rfl, rfl, rfl, rfl, rfl, rfl⟩, ?_, ?_,
    by decide, by decide, by decide, by decide, by decide⟩
  · intro s h
    simp [FeedCardTsx.parseNum, h]
  · intro s h
    simp [FeedCardC.parseNum, h]

/-- C5 witness: an all-separator string cleans to empty and parses to absent
in both parsers. -/
theorem parseNum_amended_witness :
    FeedCardTsx.parseNum (.str " , ") = none ∧ FeedCardC.parseNum (.str "$,") = none :=
  ⟨parseNum_amended.2.2.1 " , " (by decide), parseNum_amended.2.2.2.1 "$," (by decide)⟩

/-- Dividing an exact millisecond multiple of a day by `86400000` and rounding
recovers the day difference. -/
theorem jsRound_day_diff (d1 d2 : Int) :
    FeedCardC.jsRound (mkRat (86400000 * d2 - 86400000 * d1) 86400000) = d2 - d1 := by
  unfold FeedCardC.jsRound
  have hq : (mkRat (86400000 * d2 - 86400000 * d1) 86400000 : ℚ) = ((d2 - d1 : Int) : ℚ) := by
    rw [Rat.mkRat_eq_div]
    push_cast
    have h86 : ((86400000 : ℚ)) ≠ 0 := by norm_num
    field_simp
    ring
  have h12 : (mkRat 1 2 : ℚ) = 1 / 2 := by
    rw [Rat.mkRat_eq_div]
    norm_num
  rw [qadd_eq, hq, h12, Int.floor_int_add]
  norm_num

/-- C4: for congress events, `daysBetweenYMD` is `null` when either date is
missing; it is `null` when either date fails the component parse (malformed:
missing, non-numeric, or zero components); on parseable dates it equals the
whole-day difference between the two dates (the report-date day index minus
the trade-date day index); the display suppresses a negative lag to the
placeholder; and the scenario `2024-01-01` → `2024-01-10` yields `9`. -/
theorem congress_lag_days :
    (∀ b, FeedCardC.daysBetweenYMD none b = none ∧ FeedCardC.daysBetweenYMD b none = none) ∧
    (∀ a b, FeedCardC.parseYMD a = none →
      FeedCardC.daysBetweenYMD (some a) (some b) = none) ∧
    (∀ a b, FeedCardC.parseYMD b = none →
      FeedCardC.daysBetweenYMD (some a) (some b) = none) ∧
    (∀ a b ay am ad cy cm cd,
      FeedCardC.parseYMD a = some (ay, am, ad) →
      FeedCardC.parseYMD b = some (cy, cm, cd) →
      FeedCardC.daysBetweenYMD (some a) (some b) =
        some (FeedCardC.jsMakeDay (FeedCardC.jsToInt cy) (FeedCardC.jsToInt (qsub cm 1))
                (FeedCardC.jsToInt cd) -
              FeedCardC.jsMakeDay (FeedCardC.jsToInt ay) (FeedCardC.jsToInt (qsub am 1))
                (FeedCardC.jsToInt ad))) ∧
    (∀ d : Int, d < 0 → FeedCardC.shownLag (some d) = none) ∧
    FeedCardC.daysBetweenYMD (some "2024-01-01") (some "2024-01-10") = some 9 := by
  have hempty : FeedCardC.parseYMD "" = none := by decide
  refine ⟨?_, ?_, ?_, ?_, ?_, by decide⟩
  · intro b
    constructor <;> cases b <;> rfl
  · intro a b h
    unfold FeedCardC.daysBetweenYMD
    dsimp only
    rw [h]
    by_cases he : a = "" ∨ b = ""
    · rw [if_pos he]
    · rw [if_neg he]
  · intro a b h
    unfold FeedCardC.daysBetweenYMD
    dsimp only
    rw [h]
    by_cases he : a = "" ∨ b = ""
    · rw [if_pos he]
    · rw [if_neg he]
      cases hpa : FeedCardC.parseYMD a with
      | none => rfl
      | some t => rcases t with ⟨ay, am, ad⟩; rfl
  · intro a b ay am ad cy cm cd hpa hpb
    have ha : a ≠ "" := fun he => by rw [he, hempty] at hpa; cases hpa
    have hb : b ≠ "" := fun he => by rw [he, hempty] at hpb; cases hpb
    unfold FeedCardC.daysBetweenYMD
    dsimp only
    rw [if_neg (by tauto), hpa, hpb]
    dsimp only
    unfold FeedCardC.jsDateUTC
    rw [jsRound_day_diff]
  · intro d h
    unfold FeedCardC.shownLag
    dsimp only
    rw [if_neg (not_le.mpr h)]

/-- C4 witness: a non-parsing date yields `null` on either side, the scenario
dates instantiate the day-difference equation, and a negative lag is
suppressed in display. -/
theorem congress_lag_days_witness :
    FeedCardC.daysBetweenYMD (some "garbage") (some "2024-01-10") = none ∧
    FeedCardC.daysBetweenYMD (some "2024-01-01") (some "garbage") = none ∧
    FeedCardC.daysBetweenYMD (some "2024-01-01") (some "2024-01-10") =
      some (FeedCardC.jsMakeDay (FeedCardC.jsToInt 2024) (FeedCardC.jsToInt (qsub 1 1))
              (FeedCardC.jsToInt 10) -
            FeedCardC.jsMakeDay (FeedCardC.jsToInt 2024) (FeedCardC.jsToInt (qsub 1 1))
              (FeedCardC.jsToInt 1)) ∧
    FeedCardC.shownLag (some (-3)) = none :=
  ⟨congress_lag_days.2.1 "garbage" "2024-01-10" (by decide),
   congress_lag_days.2.2.1 "2024-01-01" "garbage" (by decide),
   congress_lag_days.2.2.2.1 "2024-01-01" "2024-01-10" 2024 1 1 2024 1 10
     (by decide) (by decide),
   congress_lag_days.2.2.2.2.1 (-3) (by decide)⟩

/-- C6: switching the mode to `insider` clears the member, chamber, party (and
trade-type) filters and leaves symbol, minAmount and recentDays untouched, in
one atomic state update. -/
theorem setMode_insider_frame (f : FeedFilters.FilterState) :
    (FeedFilters.setMode .insider f).member = "" ∧
    (FeedFilters.setMode .insider f).chamber = "" ∧
    (FeedFilters.setMode .insider f).party = "" ∧
    (FeedFilters.setMode .insider f).tradeType = "" ∧
    (FeedFilters.setMode .insider f).symbol = f.symbol ∧
    (FeedFilters.setMode .insider f).minAmount = f.minAmount ∧
    (FeedFilters.setMode .insider f).recentDays = f.recentDays ∧
    (FeedFilters.setMode .insider f).tape = .insider := by
  cases f
  exact ⟨rfl, rfl, rfl, rfl, rfl, rfl, rfl, rfl⟩

/-- A stale-stamped response leaves a concrete state unchanged. -/
theorem arrive_mk_stale (c r : Nat) (v items : List String) (h : c ≠ r) :
    FeedFilters.arrive ⟨c, v⟩ r items = ⟨c, v⟩ := by
  unfold FeedFilters.arrive
  rw [if_neg (show (⟨c, v⟩ : FeedFilters.SuggestState).counter ≠ r from h)]

/-- A response stamped with the current counter replaces the visible list. -/
theorem arrive_mk_hit (c : Nat) (v items : List String) :
    FeedFilters.arrive ⟨c, v⟩ c items = ⟨c, items⟩ := by
  unfold FeedFilters.arrive
  rw [if_pos (show (⟨c, v⟩ : FeedFilters.SuggestState).counter = c from rfl)]

/-- C8: a response is discarded whenever its stamp differs from the latest
dispatched counter; and for two requests dispatched in order, the stamps are
strictly increasing and the visible list after both responses arrive equals
the second request's result under either arrival order. -/
theorem suggestion_latest_wins :
    (∀ (s : FeedFilters.SuggestState) (requestId : Nat) (items : List String),
        s.counter ≠ requestId → FeedFilters.arrive s requestId items = s) ∧
    (∀ (s0 : FeedFilters.SuggestState) (i1 i2 : List String),
        (FeedFilters.dispatch s0).2 < (FeedFilters.dispatch (FeedFilters.dispatch s0).1).2 ∧
        (FeedFilters.arrive
            (FeedFilters.arrive (FeedFilters.dispatch (FeedFilters.dispatch s0).1).1
              (FeedFilters.dispatch s0).2 i1)
            (FeedFilters.dispatch (FeedFilters.dispatch s0).1).2 i2).visible = i2 ∧
        (FeedFilters.arrive
            (FeedFilters.arrive (FeedFilters.dispatch (FeedFilters.dispatch s0).1).1
              (FeedFilters.dispatch (FeedFilters.dispatch s0).1).2 i2)
            (FeedFilters.dispatch s0).2 i1).visible = i2) := by
  constructor
  · intro s requestId items h
    unfold FeedFilters.arrive
    rw [if_neg h]
  · intro s0 i1 i2
    obtain ⟨c, v⟩ := s0
    refine ⟨by simp [FeedFilters.dispatch], ?_, ?_⟩
    · show (FeedFilters.arrive (FeedFilters.arrive ⟨c + 1 + 1, v⟩ (c + 1) i1)
          (c + 1 + 1) i2).visible = i2
      rw [arrive_mk_stale (c + 1 + 1) (c + 1) v i1 (by omega), arrive_mk_hit (c + 1 + 1) v i2]
    · show (FeedFilters.arrive (FeedFilters.arrive ⟨c + 1 + 1, v⟩ (c + 1 + 1) i2)
          (c + 1) i1).visible = i2
      rw [arrive_mk_hit (c + 1 + 1) v i2, arrive_mk_stale (c + 1 + 1) (c + 1) i2 i1 (by omega)]

/-- C8 witness: a mismatched stamp is discarded, and the two-request race at a
concrete state resolves to the second result. -/
theorem suggestion_latest_wins_witness :
    FeedFilters.arrive ⟨5, ["AAPL"]⟩ 3 ["NVDA"] = ⟨5, ["AAPL"]⟩ ∧
    (FeedFilters.arrive
        (FeedFilters.arrive (FeedFilters.dispatch (FeedFilters.dispatch ⟨0, []⟩).1).1
          (FeedFilters.dispatch ⟨0, []⟩).2 ["AAPL"])
        (FeedFilters.dispatch (FeedFilters.dispatch ⟨0, []⟩).1).2 ["NVDA"]).visible = ["NVDA"] :=
  ⟨suggestion_latest_wins.1 ⟨5, ["AAPL"]⟩ 3 ["NVDA"] (by decide),
   (suggestion_latest_wins.2 ⟨0, []⟩ ["AAPL"] ["NVDA"]).2.1⟩

/-- C10: decoding always yields a valid mode — a `tape` parameter that trims
to anything other than the three recognized values decodes to `all`, and the
decoded mode is always one of congress, insider, all. -/
theorem initialFilters_tape_default :
    (∀ p : FeedFilters.Params,
        FeedFilters.normalizeValue p.tape ≠ "congress" →
        FeedFilters.normalizeValue p.tape ≠ "insider" →
        FeedFilters.normalizeValue p.tape ≠ "all" →
        (FeedFilters.initialFilters p).tape = .all) ∧
    (∀ p : FeedFilters.Params,
        (FeedFilters.initialFilters p).tape = .congress ∨
        (FeedFilters.initialFilters p).tape = .insider ∨
        (FeedFilters.initialFilters p).tape = .all) := by
  constructor
  · intro p h1 h2 h3
    simp [FeedFilters.initialFilters, h1, h2, h3]
  · intro p
    simp only [FeedFilters.initialFilters]
    split_ifs <;> simp

/-- C10 witness: a whitespace-padded junk `tape` value decodes to mode `all`. -/
theorem initialFilters_tape_default_witness :
    (FeedFilters.initialFilters { tape := some " bogus " }).tape = .all :=
  initialFilters_tape_default.1 { tape := some " bogus " } (by decide) (by decide) (by decide)

/-- C7 counterexample: an insider-mode state with a non-empty `member` filter
does not survive the URL round-trip — `buildParams` omits filters hidden for
the active mode, so decoding returns `member = ""` — refuting the claim that
every FilterState round-trips identically. -/
theorem filters_roundtrip_counterexample :
    FeedFilters.initialFilters (FeedFilters.buildParams {} insiderMemberState) ≠
      insiderMemberState := by decide

set_option maxHeartbeats 1000000 in
/-- `buildParams` on a congress-mode state, field by field. -/
theorem buildParams_congress (base : FeedFilters.Params) (sy mi re me ch pa tr tx ro : String) :
    FeedFilters.buildParams base ⟨.congress, sy, mi, re, me, ch, pa, tr, tx, ro⟩ =
      ⟨some "congress",
       if sy ≠ "" then some sy else none,
       if mi ≠ "" then some mi else none,
       if re ≠ "" then some re else none,
       if me ≠ "" then some me else none,
       if ch ≠ "" then some ch else none,
       if pa ≠ "" then some pa else none,
       if tr ≠ "" then some tr else none,
       none, none⟩ := by
  unfold FeedFilters.buildParams
  dsimp only [FeedFilters.FeedMode.wire]
  split_ifs <;> rfl

set_option maxHeartbeats 1000000 in
/-- `buildParams` on an insider-mode state, field by field. -/
theorem buildParams_insider (base : FeedFilters.Params) (sy mi re me ch pa tr tx ro : String) :
    FeedFilters.buildParams base ⟨.insider, sy, mi, re, me, ch, pa, tr, tx, ro⟩ =
      ⟨some "insider",
       if sy ≠ "" then some sy else none,
       if mi ≠ "" then some mi else none,
       if re ≠ "" then some re else none,
       none, none, none, none,
       if tx ≠ "" then some tx else none,
       if ro ≠ "" then some ro else none⟩ := by
  unfold FeedFilters.buildParams
  dsimp only [FeedFilters.FeedMode.wire]
  split_ifs <;> rfl

set_option maxHeartbeats 1000000 in
/-- `buildParams` on an all-mode state, field by field. -/
theorem buildParams_all (base : FeedFilters.Params) (sy mi re me ch pa tr tx ro : String) :
    FeedFilters.buildParams base ⟨.all, sy, mi, re, me, ch, pa, tr, tx, ro⟩ =
      ⟨some "all",
       if sy ≠ "" then some sy else none,
       if mi ≠ "" then some mi else none,
       if re ≠ "" then some re else none,
       none, none, none,
       if tr ≠ "" then some tr else none,
       if tx ≠ "" then some tx else none,
       none⟩ := by
  unfold FeedFilters.buildParams
  dsimp only [FeedFilters.FeedMode.wire]
  split_ifs <;> rfl

/-- Decoding the conditional encoding of a trim-stable value returns it. -/
theorem normalize_opt (s : String) (h : jsTrim s = s) :
    FeedFilters.normalizeValue (if s ≠ "" then some s else none) = s := by
  by_cases hs : s = ""
  · subst hs
    rw [if_neg (by simp)]
    exact jsTrim_empty
  · rw [if_pos hs]
    exact h

/-- C7 (amended): the URL round-trip is the identity exactly on the states the
UI can hold: whenever the filters hidden for the active mode are empty (the
state is a fixed point of `clearHiddenFilters`) and every value is free of
surrounding whitespace, decoding the encoded params reproduces the state,
whatever unmanaged params the URL already carried. -/
theorem filters_roundtrip_amended (base : FeedFilters.Params) (f : FeedFilters.FilterState)
    (hclean : FeedFilters.clearHiddenFilters f.tape f = f)
    (ht : FeedFilters.trimNormal f) :
    FeedFilters.initialFilters (FeedFilters.buildParams base f) = f := by
  obtain ⟨tape, sy, mi, re, me, ch, pa, tr, tx, ro⟩ := f
  obtain ⟨h1, h2, h3, h4, h5, h6, h7, h8, h9⟩ := ht
  cases tape with
  | congress =>
    simp only [FeedFilters.clearHiddenFilters, FeedFilters.FilterState.mk.injEq,
      true_and, and_true] at hclean
    obtain ⟨htx, hro⟩ := hclean
    subst htx
    subst hro
    rw [buildParams_congress]
    unfold FeedFilters.initialFilters
    dsimp only
    have hT : FeedFilters.normalizeValue (some "congress") = "congress" := jsTrim_congress
    rw [hT, if_pos rfl, normalize_opt sy h1, normalize_opt mi h2, normalize_opt re h3,
      normalize_opt me h4, normalize_opt ch h5, normalize_opt pa h6, normalize_opt tr h7]
    rfl
  | insider =>
    simp only [FeedFilters.clearHiddenFilters, FeedFilters.FilterState.mk.injEq,
      true_and, and_true] at hclean
    obtain ⟨hme, hch, hpa, htr⟩ := hclean
    subst hme
    subst hch
    subst hpa
    subst htr
    rw [buildParams_insider]
    unfold FeedFilters.initialFilters
    dsimp only
    have hT : FeedFilters.normalizeValue (some "insider") = "insider" := jsTrim_insider
    rw [hT, if_neg (by decide), if_pos rfl, normalize_opt sy h1, normalize_opt mi h2,
      normalize_opt re h3, normalize_opt tx h8, normalize_opt ro h9]
    rfl
  | all =>
    simp only [FeedFilters.clearHiddenFilters, FeedFilters.FilterState.mk.injEq,
      true_and, and_true] at hclean
    obtain ⟨hme, hch, hpa, hro⟩ := hclean
    subst hme
    subst hch
    subst hpa
    subst hro
    rw [buildParams_all]
    unfold FeedFilters.initialFilters
    dsimp only
    have hT : FeedFilters.normalizeValue (some "all") = "all" := jsTrim_all
    rw [hT, if_neg (by decide), if_neg (by decide), if_pos rfl, normalize_opt sy h1,
      normalize_opt mi h2, normalize_opt re h3, normalize_opt tr h7, normalize_opt tx h8]
    rfl

/-- C7 witness: the congress view state round-trips through the URL params
unchanged. -/
theorem filters_roundtrip_amended_witness :
    FeedFilters.initialFilters (FeedFilters.buildParams {} congressViewState) =
      congressViewState :=
  filters_roundtrip_amended {} congressViewState (by decide) (by decide)
